import Mathlib

/-!
# Verification of the anvil CAD construction library

Shallow embedding of the core of the `anvil` crate: the deferred
composition-log model for planar sketches (`Sketch` / `SketchAction`), the
eager solid wrapper (`Part`), and the quantity / spatial-primitive algebra
(`Length`, `Angle`, points, directions, planes).

Modelling conventions:
* `f64` scalars are modelled by exact rationals (`ℚ`) wherever the code only
  adds, subtracts, multiplies, divides and compares them; the square-root
  based definitions (`Dir3::magnitude`, `Dir2D::try_from`, `Plane::new`) are
  modelled over `ℝ` with `Real.sqrt`.
* The OpenCASCADE geometry kernel is an external collaborator of the crate
  (`opencascade_sys::ffi`).  It is embedded as a structure `Kernel` of
  abstract operations over abstract shape / edge / plane types; the crate's
  own logic is translated verbatim on top of it.  Concrete model kernels
  (axis-aligned rectangles / boxes with exact measures) instantiate it for
  witnesses and counterexamples.
* A Rust `panic!` / `todo!()` is modelled by the `none` case of an outer
  `Option` layer: `none` = the evaluation panicked, `some r` = it returned
  `r`.
-/

/-- Rust `Length` stores meters as an `f64`; modelled as an exact rational. -/
abbrev Length : Type := ℚ

/-- Rust `Angle` stores radians as an `f64`; modelled as an exact rational. -/
abbrev Angle : Type := ℚ

/-- Rust `Point2D`: a pair of `Length` coordinates (`src/quantities/point2d.rs`). -/
structure Point2D where
  x : Length
  y : Length
deriving DecidableEq, Repr

/-- Rust `Point3D`: a triple of `Length` coordinates (`src/quantities/point3d.rs`). -/
structure Point3D where
  x : Length
  y : Length
  z : Length
deriving DecidableEq, Repr

/-- Componentwise subtraction of `Point3D` (the `Sub` impl). -/
def Point3D.sub (a b : Point3D) : Point3D :=
  ⟨a.x - b.x, a.y - b.y, a.z - b.z⟩

/-- Rust `Edge` (`src/sketches/edge.rs`): a circle at a center with a radius, or a
line between two points. -/
inductive Edge : Type where
  | circle (center : Point2D) (radius : Length)
  | line (start stop : Point2D)
deriving DecidableEq, Repr

/-- Rust `Edge::to_occt` drops the edge when `self.len() == Length::zero()`.
`len` is `radius * TAU` for a circle and `sqrt(dx^2+dy^2)` for a line, so in
exact arithmetic the test holds iff the radius is zero resp. the endpoints
coincide. -/
def Edge.degenerate : Edge → Bool
  | .circle _ radius => radius = 0
  | .line start stop => start = stop

/-- The action log entries of a `Sketch` (`SketchAction` in
`src/sketches/sketch.rs`).  A nested sketch is represented by its own action
list (the `Sketch` struct is a newtype around `Vec<SketchAction>`). -/
inductive SketchAction : Type where
  | add (other : List SketchAction)
  | addEdges (edges : List Edge)
  | intersect (other : List SketchAction)
  | moveTo (loc : Point2D)
  | rotateAround (point : Point2D) (angle : Angle)
  | scale (factor : ℚ)
  | subtract (other : List SketchAction)
deriving Repr

/-- Rust `Sketch`: an ordered, immutable log of `SketchAction` values. -/
structure Sketch where
  actions : List SketchAction
deriving Repr

/-- The geometry-kernel boundary (`opencascade_sys::ffi`, an external
collaborator of the crate).  `S` is the type of kernel shape handles
(`TopoDS_Shape`), `E` of kernel edges (`TopoDS_Edge`), `P` of planes.  Each
field packages one foreign-call sequence exactly as the crate uses it:

* `fuse`, `common`, `cut`: `BRepAlgoAPI_Fuse/Common/Cut` followed by `Shape()`;
* `area`: `BRepGProp_SurfaceProperties` + `Mass()` (the body of `occt_area`);
* `volume`: `BRepGProp_VolumeProperties` + `Mass()`;
* `volCentroid`: `BRepGProp_VolumeProperties` + `CentreOfMass` coordinates;
* `makeEdge`: the non-degenerate branch of `Edge::to_occt` against a plane;
* `makeFace`: `MakeWire` over the projected edges followed by `MakeFace`;
* `translateTo`: the `MoveTo` branch (`set_global_translation` with
  `loc.to_3d(plane)`);
* `translate`: a plain translation transform by a 3D vector;
* `rotateAround`: the `RotateAround` branch (rotation about the axis through
  `point.to_3d(plane)` with direction `plane.normal()`);
* `scaleAbout`: `SetScale(pivot, factor)` + `BRepBuilderAPI_Transform`;
* `prism`: `BRepPrimAPI_MakePrism` sweeping a face along
  `plane.normal() * thickness`;
* `xy`: the plane `Plane::xy()`. -/
structure Kernel (S E P : Type) where
  fuse : S → S → S
  common : S → S → S
  cut : S → S → S
  area : S → ℚ
  volume : S → ℚ
  volCentroid : S → Point3D
  makeEdge : Edge → P → E
  makeFace : List E → S
  translateTo : S → Point2D → P → S
  translate : S → Point3D → S
  rotateAround : S → Point2D → Angle → P → S
  scaleAbout : S → Point3D → ℚ → S
  prism : S → P → Length → S
  xy : P

/-- Rust `occt_center` (`src/sketches/sketch.rs`): queries the kernel centroid and
rebuilds the point as `Point3D::from_m(X, Y, X)` — note the third component
is the X coordinate, exactly as in the source. -/
def occtCenter {S E P : Type} (K : Kernel S E P) (shape : S) : Point3D :=
  let c := K.volCentroid shape
  ⟨c.x, c.y, c.x⟩

/-- Rust `edges_to_occt` (`src/sketches/sketch.rs`): project each edge through the
plane dropping degenerate ones; if none remain the result is
`Err(Error::EmptySketch)` (modelled as `none`), otherwise the wire is capped
into a face. -/
def edgesToOcct {S E P : Type} (K : Kernel S E P) (edges : List Edge) (p : P) :
    Option S :=
  let occtEdges := edges.filterMap fun e =>
    if e.degenerate then none else some (K.makeEdge e p)
  if occtEdges.isEmpty then none else some (K.makeFace occtEdges)

/-- Rust `other.to_occt(plane).ok()`: the fold of the nested sketch finishes with
`Some shape → Ok → Some shape` and `None → Err(EmptySketch) → None`, so the
`.ok()` view of a finished accumulator is the accumulator itself. -/
def resultOk {S : Type} (acc : Option S) : Option S := acc

mutual

/-- Rust `SketchAction::apply` (`src/sketches/sketch.rs`).  The accumulator is
`Option S` (`None` = empty); the outer `Option` layer is `none` exactly when
the `todo!()` in the `AddEdges`-with-accumulated-geometry branch is reached
(a Rust panic), either directly or inside a nested evaluation. -/
def SketchAction.apply {S E P : Type} (K : Kernel S E P) (p : P) :
    SketchAction → Option S → Option (Option S)
  | .add other, acc =>
    match evalActions K p other none with
    | none => none
    | some otherRes =>
      match acc, resultOk otherRes with
      | none, none => some none
      | none, some o => some (some o)
      | some s, none => some (some s)
      | some s, some o => some (some (K.fuse s o))
  | .addEdges edges, acc =>
    match acc with
    | none => some (edgesToOcct K edges p)
    | some _ => none
  | .intersect other, acc =>
    match evalActions K p other none with
    | none => none
    | some otherRes =>
      match acc, resultOk otherRes with
      | some s, some o =>
        let newShape := K.common s o
        if K.area newShape = 0 then some none else some (some newShape)
      | _, _ => some none
  | .moveTo loc, acc =>
    match acc with
    | some s => some (some (K.translateTo s loc p))
    | none => some none
  | .rotateAround point angle, acc =>
    match acc with
    | some s => some (some (K.rotateAround s point angle p))
    | none => some none
  | .scale factor, acc =>
    match acc with
    | some s => some (some (K.scaleAbout s (occtCenter K s) factor))
    | none => some none
  | .subtract other, acc =>
    match evalActions K p other none with
    | none => none
    | some otherRes =>
      match acc, resultOk otherRes with
      | none, none => some none
      | none, some _ => some none
      | some s, none => some (some s)
      | some s, some o => some (some (K.cut s o))
termination_by a _ => sizeOf a

/-- The loop body of `Sketch::to_occt`: `for action in &self.0 { occt =
action.apply(occt, plane) }`, threading the panic layer. -/
def evalActions {S E P : Type} (K : Kernel S E P) (p : P) :
    List SketchAction → Option S → Option (Option S)
  | [], acc => some acc
  | a :: rest, acc =>
    match SketchAction.apply K p a acc with
    | none => none
    | some acc2 => evalActions K p rest acc2
termination_by l _ => sizeOf l

end

/-- Rust `Errors` (`src/errors.rs`).  `Dir3` payloads are added further down for
the direction/plane development; the sketch/part development only produces
`emptySketch` / `emptyPart`. -/
inductive AnvilError : Type where
  | emptyPart
  | emptySketch
  | stepWrite (path : String)
  | stlWrite (path : String)
deriving DecidableEq, Repr

/-- Rust `Sketch::to_occt`: fold the action log from accumulator `None`, then
`Some(face) → Ok(face)`, `None → Err(EmptySketch)`.  The outer `Option` is
the panic layer. -/
def Sketch.to_occt {S E P : Type} (K : Kernel S E P) (s : Sketch) (p : P) :
    Option (Except AnvilError S) :=
  match evalActions K p s.actions none with
  | none => none
  | some none => some (.error .emptySketch)
  | some (some face) => some (.ok face)

/-- Rust `Sketch::empty`. -/
def Sketch.empty : Sketch := ⟨[]⟩

/-- Rust `Sketch::from_edges`: a singleton `AddEdges` log. -/
def Sketch.from_edges (edges : List Edge) : Sketch := ⟨[.addEdges edges]⟩

/-- Rust `Sketch::add`: append an `Add` action. -/
def Sketch.add (s t : Sketch) : Sketch := ⟨s.actions ++ [.add t.actions]⟩

/-- Rust `Sketch::intersect`: append an `Intersect` action. -/
def Sketch.intersect (s t : Sketch) : Sketch := ⟨s.actions ++ [.intersect t.actions]⟩

/-- Rust `Sketch::subtract`: append a `Subtract` action. -/
def Sketch.subtract (s t : Sketch) : Sketch := ⟨s.actions ++ [.subtract t.actions]⟩

/-- Rust `Sketch::move_to`: append a `MoveTo` action. -/
def Sketch.move_to (s : Sketch) (loc : Point2D) : Sketch := ⟨s.actions ++ [.moveTo loc]⟩

/-- Rust `Sketch::rotate_around`: append a `RotateAround` action. -/
def Sketch.rotate_around (s : Sketch) (point : Point2D) (angle : Angle) : Sketch :=
  ⟨s.actions ++ [.rotateAround point angle]⟩

/-- Rust `Sketch::scale`: append a `Scale` action. -/
def Sketch.scale (s : Sketch) (factor : ℚ) : Sketch := ⟨s.actions ++ [.scale factor]⟩

/-- The sketches constructible through the crate's public API.  `Sketch`
values are created by `Sketch::empty`, by `Sketch::from_edges` (the only
constructor used by `Path::close`, `Rectangle` and `Circle`), and by the
pure combinators, each of which appends a single non-`AddEdges` action to a
clone of the log.  The derived operations (`circular_pattern`,
`linear_pattern`, `rotate`) are compositions of these. -/
inductive Reachable : Sketch → Prop where
  | empty : Reachable Sketch.empty
  | from_edges (edges : List Edge) : Reachable (Sketch.from_edges edges)
  | add {s t : Sketch} : Reachable s → Reachable t → Reachable (s.add t)
  | intersect {s t : Sketch} : Reachable s → Reachable t → Reachable (s.intersect t)
  | subtract {s t : Sketch} : Reachable s → Reachable t → Reachable (s.subtract t)
  | move_to {s : Sketch} (loc : Point2D) : Reachable s → Reachable (s.move_to loc)
  | rotate_around {s : Sketch} (point : Point2D) (angle : Angle) :
      Reachable s → Reachable (s.rotate_around point angle)
  | scale {s : Sketch} (factor : ℚ) : Reachable s → Reachable (s.scale factor)

mutual

/-- Well-formedness of a single action: an `AddEdges` is admissible only as
the first action of a log (`first = true`), and any nested sketch log must be
well formed. -/
def goodAct : Bool → SketchAction → Bool
  | first, .addEdges _ => first
  | _, .add other => goodLog other
  | _, .intersect other => goodLog other
  | _, .subtract other => goodLog other
  | _, .moveTo _ => true
  | _, .rotateAround _ _ => true
  | _, .scale _ => true
termination_by _ a => sizeOf a

/-- Well-formedness of the non-head part of a log: no `AddEdges` at all. -/
def goodRest : List SketchAction → Bool
  | [] => true
  | a :: r => goodAct false a && goodRest r
termination_by l => sizeOf l

/-- Well-formedness of a whole log: `AddEdges` may appear only at index 0,
recursively in all nested logs. -/
def goodLog : List SketchAction → Bool
  | [] => true
  | a :: r => goodAct true a && goodRest r
termination_by l => sizeOf l

end

theorem goodRest_append (l : List SketchAction) (a : SketchAction) :
    goodRest (l ++ [a]) = (goodRest l && goodAct false a) := by
  induction l with
  | nil => simp [goodRest]
  | cons b r ih => simp [goodRest, ih, Bool.and_assoc]

/-- For every action other than `AddEdges`, `goodAct` ignores the position
flag. -/
theorem goodAct_of_not_addEdges (a : SketchAction)
    (h : ∀ es, a ≠ .addEdges es) (f g : Bool) : goodAct f a = goodAct g a := by
  cases a with
  | addEdges es => exact absurd rfl (h es)
  | add o => simp [goodAct]
  | intersect o => simp [goodAct]
  | subtract o => simp [goodAct]
  | moveTo l => simp [goodAct]
  | rotateAround p q => simp [goodAct]
  | scale f => simp [goodAct]

theorem goodLog_append (l : List SketchAction) (a : SketchAction)
    (h : ∀ es, a ≠ .addEdges es) :
    goodLog (l ++ [a]) = (goodLog l && goodAct false a) := by
  cases l with
  | nil =>
    simp [goodLog, goodRest, goodAct_of_not_addEdges a h true false]
  | cons b r =>
    simp [goodLog, goodRest_append, Bool.and_assoc]

theorem evalActions_cons {S E P : Type} (K : Kernel S E P) (p : P)
    (a : SketchAction) (rest : List SketchAction) (acc : Option S) :
    evalActions K p (a :: rest) acc =
      match SketchAction.apply K p a acc with
      | none => none
      | some acc2 => evalActions K p rest acc2 := by
  simp [evalActions]

theorem foldl_apply_none {S E P : Type} (K : Kernel S E P) (p : P)
    (l : List SketchAction) :
    l.foldl (fun m a => m.bind fun acc => SketchAction.apply K p a acc) none
      = none := by
  induction l with
  | nil => rfl
  | cons a rest ih => simpa using ih

/-- The evaluation loop is the left fold of `SketchAction::apply` (in the
panic monad) over the action list. -/
theorem evalActions_eq_foldl {S E P : Type} (K : Kernel S E P) (p : P)
    (l : List SketchAction) (acc : Option S) :
    evalActions K p l acc =
      l.foldl (fun m a => m.bind fun acc2 => SketchAction.apply K p a acc2)
        (some acc) := by
  induction l generalizing acc with
  | nil => simp [evalActions]
  | cons a rest ih =>
    rw [evalActions_cons]
    cases hap : SketchAction.apply K p a acc with
    | none => simp [hap, foldl_apply_none]
    | some acc2 => simp [hap, ih acc2]

/-- C1: For every Sketch and every Plane, evaluation (`Sketch::to_occt`) is a
left fold over the action log starting from accumulator `None`; `Add` treats
`None` as the additive identity (`Some`/`Some` gives the kernel union, one
`None` operand passes the `Some` through, `None`/`None` stays `None`);
`Intersect` is absorbing on `None` and collapses an intersection whose area
measure is exactly 0 to `None`; `Subtract` leaves a `Some` accumulator
unchanged when the subtrahend evaluates to `None` and yields `None` whenever
the accumulator is `None`; a final accumulator of `None` makes evaluation
return `Err(EmptySketch)` while a final `Some(shape)` returns `Ok(shape)`.
(The `Option.map` threads the panic layer of the nested evaluation.) -/
theorem sketch_to_occt_is_fold_with_identity_table
    (S E P : Type) (K : Kernel S E P) (p : P) (s : Sketch) :
    (s.to_occt K p =
      match s.actions.foldl
          (fun m a => m.bind fun acc2 => SketchAction.apply K p a acc2)
          (some none) with
      | none => none
      | some none => some (.error AnvilError.emptySketch)
      | some (some face) => some (.ok face)) ∧
    (∀ (other : List SketchAction) (acc : Option S),
      SketchAction.apply K p (.add other) acc =
        (evalActions K p other none).map fun r =>
          match acc, r with
          | none, none => none
          | none, some o => some o
          | some a, none => some a
          | some a, some o => some (K.fuse a o)) ∧
    (∀ (other : List SketchAction) (acc : Option S),
      SketchAction.apply K p (.intersect other) acc =
        (evalActions K p other none).map fun r =>
          match acc, r with
          | some a, some o =>
            if K.area (K.common a o) = 0 then none else some (K.common a o)
          | _, _ => none) ∧
    (∀ (other : List SketchAction) (acc : Option S),
      SketchAction.apply K p (.subtract other) acc =
        (evalActions K p other none).map fun r =>
          match acc, r with
          | none, _ => none
          | some a, none => some a
          | some a, some o => some (K.cut a o)) := by
  refine ⟨?_, ?_, ?_, ?_⟩
  · rw [Sketch.to_occt, evalActions_eq_foldl]
  · intro other acc
    cases h : evalActions K p other none with
    | none => simp [SketchAction.apply, h]
    | some r => cases acc <;> cases r <;> simp [SketchAction.apply, h, resultOk]
  · intro other acc
    cases h : evalActions K p other none with
    | none => simp [SketchAction.apply, h]
    | some r =>
      cases acc <;> cases r <;>
        simp [SketchAction.apply, h, resultOk, apply_ite some]
  · intro other acc
    cases h : evalActions K p other none with
    | none => simp [SketchAction.apply, h]
    | some r => cases acc <;> cases r <;> simp [SketchAction.apply, h, resultOk]

theorem sizeOf_pos_action (a : SketchAction) : 1 ≤ sizeOf a := by
  cases a <;> simp_arith

/-- Folding a well-formed log never reaches the `todo!()` branch: starting
from any accumulator if the log has no `AddEdges` at all (`goodRest`),
starting from `None` if an `AddEdges` may sit at index 0 (`goodLog`). -/
theorem evalActions_ne_none_of_good {S E P : Type} (K : Kernel S E P) (p : P) :
    ∀ (n : ℕ) (l : List SketchAction), sizeOf l ≤ n →
      (goodRest l = true → ∀ acc, evalActions K p l acc ≠ none) ∧
      (goodLog l = true → evalActions K p l none ≠ none) := by
  intro n
  induction n with
  | zero =>
    intro l hl
    exfalso
    have : 1 ≤ sizeOf l := by cases l <;> simp_arith
    omega
  | succ n ih =>
    intro l hl
    cases l with
    | nil =>
      refine ⟨fun _ acc => ?_, fun _ => ?_⟩ <;> simp [evalActions]
    | cons a rest =>
      have hrest : sizeOf rest ≤ n := by
        have h1 := sizeOf_pos_action a
        simp_arith at hl
        omega
      have hstep : ∀ acc, goodAct false a = true →
          ∃ acc2, SketchAction.apply K p a acc = some acc2 := by
        intro acc hga
        cases a with
        | addEdges es => simp [goodAct] at hga
        | add other =>
          have ho : sizeOf other ≤ n := by simp_arith at hl; omega
          have hnest := (ih other ho).2 (by simpa [goodAct] using hga)
          obtain ⟨r, hr⟩ := Option.ne_none_iff_exists'.mp hnest
          cases acc <;> cases r <;>
            simp [SketchAction.apply, hr, resultOk]
        | intersect other =>
          have ho : sizeOf other ≤ n := by simp_arith at hl; omega
          have hnest := (ih other ho).2 (by simpa [goodAct] using hga)
          obtain ⟨r, hr⟩ := Option.ne_none_iff_exists'.mp hnest
          cases acc with
          | none => simp [SketchAction.apply, hr, resultOk]
          | some s1 =>
            cases r with
            | none => simp [SketchAction.apply, hr, resultOk]
            | some o =>
              simp only [SketchAction.apply, hr, resultOk]
              split <;> exact ⟨_, rfl⟩
        | subtract other =>
          have ho : sizeOf other ≤ n := by simp_arith at hl; omega
          have hnest := (ih other ho).2 (by simpa [goodAct] using hga)
          obtain ⟨r, hr⟩ := Option.ne_none_iff_exists'.mp hnest
          cases acc <;> cases r <;>
            simp [SketchAction.apply, hr, resultOk]
        | moveTo l => cases acc <;> simp [SketchAction.apply]
        | rotateAround q ang => cases acc <;> simp [SketchAction.apply]
        | scale f => cases acc <;> simp [SketchAction.apply]
      constructor
      · intro hg acc
        simp only [goodRest, Bool.and_eq_true] at hg
        obtain ⟨hga, hgr⟩ := hg
        obtain ⟨acc2, hap⟩ := hstep acc hga
        rw [evalActions_cons, hap]
        exact (ih rest hrest).1 hgr acc2
      · intro hg
        simp only [goodLog, Bool.and_eq_true] at hg
        obtain ⟨hga, hgr⟩ := hg
        rcases em (∃ es, a = .addEdges es) with ⟨es, rfl⟩ | hne
        · rw [evalActions_cons]
          simp only [SketchAction.apply]
          exact (ih rest hrest).1 hgr _
        · have hga' : goodAct false a = true := by
            rw [goodAct_of_not_addEdges a (fun es h => hne ⟨es, h⟩) false true]
            exact hga
          obtain ⟨acc2, hap⟩ := hstep none hga'
          rw [evalActions_cons, hap]
          exact (ih rest hrest).1 hgr acc2

theorem reachable_goodLog {s : Sketch} (h : Reachable s) :
    goodLog s.actions = true := by
  induction h with
  | empty => simp [Sketch.empty, goodLog]
  | from_edges es => simp [Sketch.from_edges, goodLog, goodRest, goodAct]
  | add hs ht ihs iht =>
    rw [Sketch.add, goodLog_append _ _ (fun es h => by cases h)]
    simp [goodAct, ihs, iht]
  | intersect hs ht ihs iht =>
    rw [Sketch.intersect, goodLog_append _ _ (fun es h => by cases h)]
    simp [goodAct, ihs, iht]
  | subtract hs ht ihs iht =>
    rw [Sketch.subtract, goodLog_append _ _ (fun es h => by cases h)]
    simp [goodAct, ihs, iht]
  | move_to loc hs ihs =>
    rw [Sketch.move_to, goodLog_append _ _ (fun es h => by cases h)]
    simp [goodAct, ihs]
  | rotate_around q ang hs ihs =>
    rw [Sketch.rotate_around, goodLog_append _ _ (fun es h => by cases h)]
    simp [goodAct, ihs]
  | scale f hs ihs =>
    rw [Sketch.scale, goodLog_append _ _ (fun es h => by cases h)]
    simp [goodAct, ihs]

/-- C8: in every Sketch reachable through the public API an `AddEdges` action
occurs only as the first action of its own action log (`goodLog`), so the
evaluation fold never reaches the unimplemented `todo!()` branch for
`AddEdges` with already-accumulated geometry: `to_occt` never panics
(its panic case `none` is unreachable), for any kernel and plane. -/
theorem reachable_sketch_never_hits_todo (s : Sketch) (h : Reachable s) :
    goodLog s.actions = true ∧
    ∀ (S E P : Type) (K : Kernel S E P) (p : P), s.to_occt K p ≠ none := by
  refine ⟨reachable_goodLog h, ?_⟩
  intro S E P K p
  have hev := (evalActions_ne_none_of_good K p (sizeOf s.actions) s.actions
    le_rfl).2 (reachable_goodLog h)
  rw [Sketch.to_occt]
  cases hx : evalActions K p s.actions none with
  | none => exact absurd hx hev
  | some r => cases r <;> simp

/-- A trivial kernel instance over unit types, used to instantiate
kernel-polymorphic theorems at concrete inputs. -/
def unitKernel : Kernel Unit Unit Unit where
  fuse := fun _ _ => ()
  common := fun _ _ => ()
  cut := fun _ _ => ()
  area := fun _ => 0
  volume := fun _ => 0
  volCentroid := fun _ => ⟨0, 0, 0⟩
  makeEdge := fun _ _ => ()
  makeFace := fun _ => ()
  translateTo := fun _ _ _ => ()
  translate := fun _ _ => ()
  rotateAround := fun _ _ _ _ => ()
  scaleAbout := fun _ _ _ => ()
  prism := fun _ _ _ => ()
  xy := ()

/-- A sketch built through the public API: two primitive sketches merged and
then moved. -/
def sampleSketch : Sketch :=
  ((Sketch.from_edges [Edge.line ⟨0, 0⟩ ⟨1, 1⟩]).add
    (Sketch.from_edges [Edge.circle ⟨0, 0⟩ 1])).move_to ⟨2, 2⟩

theorem reachable_sketch_never_hits_todo_witness :
    goodLog sampleSketch.actions = true ∧
    sampleSketch.to_occt unitKernel () ≠ none := by
  have h : Reachable sampleSketch :=
    Reachable.move_to _ (Reachable.add (Reachable.from_edges _)
      (Reachable.from_edges _))
  exact ⟨(reachable_sketch_never_hits_todo sampleSketch h).1,
    (reachable_sketch_never_hits_todo sampleSketch h).2 Unit Unit Unit
      unitKernel ()⟩

/-- Rust `Sketch::area`: 0 if evaluation on the xy plane fails, else the kernel
surface measure.  `none` = the evaluation panicked. -/
def Sketch.area {S E P : Type} (K : Kernel S E P) (s : Sketch) : Option ℚ :=
  match s.to_occt K K.xy with
  | none => none
  | some (.ok f) => some (K.area f)
  | some (.error _) => some 0

/-- Rust `Sketch::center`: propagate `EmptySketch`, else the x/y components of
`occt_center`. -/
def Sketch.center {S E P : Type} (K : Kernel S E P) (s : Sketch) :
    Option (Except AnvilError Point2D) :=
  match s.to_occt K K.xy with
  | none => none
  | some (.error e) => some (.error e)
  | some (.ok f) => some (.ok ⟨(occtCenter K f).x, (occtCenter K f).y⟩)

/-- Rust `Sketch::is_empty`: `to_occt(xy).is_err()`. -/
def Sketch.is_empty {S E P : Type} (K : Kernel S E P) (s : Sketch) :
    Option Bool :=
  match s.to_occt K K.xy with
  | none => none
  | some (.error _) => some true
  | some (.ok _) => some false

/-- Rust `self.center() != other.center()`: the derived `PartialEq` of
`Result<Point2D, Error>`. -/
def exceptPointNe (a b : Except AnvilError Point2D) : Bool :=
  match a, b with
  | .ok p, .ok q => decide (p ≠ q)
  | .error e, .error f => decide (e ≠ f)
  | _, _ => true

/-- Rust `impl PartialEq for Sketch` (`src/sketches/sketch.rs`): return `false`
when the centers disagree; otherwise evaluate `self.intersect(other)` on the
xy plane; a failed evaluation counts as equal, a successful one compares the
intersection area against both operands' areas with absolute tolerance
`1e-7`.  `none` = a panic during one of the evaluations. -/
def Sketch.beq {S E P : Type} (K : Kernel S E P) (a b : Sketch) :
    Option Bool :=
  match a.center K, b.center K with
  | none, _ => none
  | _, none => none
  | some ca, some cb =>
    if exceptPointNe ca cb then some false
    else
      match (a.intersect b).to_occt K K.xy with
      | none => none
      | some (.error _) => some true
      | some (.ok i) =>
        match a.area K, b.area K with
        | some aa, some ab =>
          some (decide (|K.area i - aa| < 1 / 10 ^ 7) &&
            decide (|K.area i - ab| < 1 / 10 ^ 7))
        | _, _ => none

/-- Modelled from the spec sentence behind claim C2 (for comparison with the
code): equal iff the centers agree (or both fail) and the intersection area
is within *relative* tolerance `1e-7` of both operands' own areas. -/
def sketchEqSpecClaim {S E P : Type} (K : Kernel S E P) (a b : Sketch) :
    Prop :=
  a.center K = b.center K ∧
  ∃ i, (a.intersect b).to_occt K K.xy = some (.ok i) ∧
    ∃ aa ab, a.area K = some aa ∧ b.area K = some ab ∧
      |K.area i - aa| ≤ (1 / 10 ^ 7) * aa ∧
      |K.area i - ab| ≤ (1 / 10 ^ 7) * ab

/-- Rust `Part` (`src/parts/part.rs`): owns at most one kernel shape handle
(`inner: Option<UniquePtr<TopoDS_Shape>>`).  Named `AnvilPart` because Lean
already has a `Part` type. -/
structure AnvilPart (S : Type) where
  inner : Option S

/-- Rust `Sketch::extrude`: `EmptySketch` for zero thickness, propagate the
evaluation error, else sweep the evaluated face into a `Part`
(`Part::from_occt` wraps the prism result in `Some`). -/
def Sketch.extrude {S E P : Type} (K : Kernel S E P) (s : Sketch) (p : P)
    (thickness : Length) : Option (Except AnvilError (AnvilPart S)) :=
  if thickness = 0 then some (.error .emptySketch)
  else
    match s.to_occt K p with
    | none => none
    | some (.error e) => some (.error e)
    | some (.ok shape) => some (.ok ⟨some (K.prism shape p thickness)⟩)

/-- Rust `Part::empty`. -/
def AnvilPart.empty (S : Type) : AnvilPart S := ⟨none⟩

/-- Rust `Part::add` (`src/parts/part.rs`). -/
def AnvilPart.add {S E P : Type} (K : Kernel S E P) (a b : AnvilPart S) : AnvilPart S :=
  match a.inner, b.inner with
  | some x, some y => ⟨some (K.fuse x y)⟩
  | some _, none => a
  | none, some _ => b
  | none, none => a

/-- Rust `Part::intersect` (`src/parts/part.rs`): note that — unlike the Sketch
fold — no measure check is performed on the result. -/
def AnvilPart.intersect {S E P : Type} (K : Kernel S E P) (a b : AnvilPart S) :
    AnvilPart S :=
  match a.inner, b.inner with
  | some x, some y => ⟨some (K.common x y)⟩
  | _, _ => ⟨none⟩

/-- Rust `Part::subtract` (`src/parts/part.rs`). -/
def AnvilPart.subtract {S E P : Type} (K : Kernel S E P) (a b : AnvilPart S) :
    AnvilPart S :=
  match a.inner, b.inner with
  | some x, some y => ⟨some (K.cut x y)⟩
  | some _, none => a
  | none, _ => ⟨none⟩

/-- Rust `Part::volume`: 0 when empty. -/
def AnvilPart.volume {S E P : Type} (K : Kernel S E P) (a : AnvilPart S) : ℚ :=
  match a.inner with
  | some x => K.volume x
  | none => 0

/-- Rust `f64::round`: round half away from zero, on exact rationals. -/
def roundHalfAwayFromZero (q : ℚ) : ℤ :=
  if q < 0 then -⌊-q + 1 / 2⌋ else ⌊q + 1 / 2⌋

/-- Rust `round` (`src/parts/part.rs`):
`(x * f64::from(10 ^ n_digits)).round() / f64::from(10 ^ n_digits)`.
In Rust `^` on integers is bitwise XOR, not exponentiation, so the scale
factor is `10 XOR n_digits` (for `n_digits = 9` that is `3`), exactly as in
the source. -/
def rustRound (x : ℚ) (nDigits : ℕ) : ℚ :=
  let scale : ℚ := ((Nat.xor 10 nDigits : ℕ) : ℚ)
  ((roundHalfAwayFromZero (x * scale) : ℤ) : ℚ) / scale

/-- Rust `Part::center`: `EmptyPart` when empty, else the kernel centroid with
each coordinate passed through `round(_, 9)`. -/
def AnvilPart.center {S E P : Type} (K : Kernel S E P) (a : AnvilPart S) :
    Except AnvilError Point3D :=
  match a.inner with
  | some x =>
    let c := K.volCentroid x
    .ok ⟨rustRound c.x 9, rustRound c.y 9, rustRound c.z 9⟩
  | none => .error .emptyPart

/-- Rust `Part::move_to`: translate by `loc - self.center().unwrap()` (the
`unwrap` cannot fail in the `Some` arm, so the rounded center is inlined);
the empty Part stays empty. -/
def AnvilPart.move_to {S E P : Type} (K : Kernel S E P) (a : AnvilPart S)
    (loc : Point3D) : AnvilPart S :=
  match a.inner with
  | some x =>
    let c := K.volCentroid x
    let ctr : Point3D := ⟨rustRound c.x 9, rustRound c.y 9, rustRound c.z 9⟩
    ⟨some (K.translate x (loc.sub ctr))⟩
  | none => ⟨none⟩

/-- Rust `impl PartialEq for Part` (`src/parts/part.rs`): both non-empty —
compare both operands' volumes against the intersection volume with
tolerance *relative to the intersection volume*; both empty — equal; mixed —
unequal. -/
def AnvilPart.beq {S E P : Type} (K : Kernel S E P) (a b : AnvilPart S) : Bool :=
  match a.inner, b.inner with
  | some _, some _ =>
    decide (|(AnvilPart.intersect K a b).volume K - a.volume K| <
      (AnvilPart.intersect K a b).volume K * (1 / 10 ^ 7)) &&
    decide (|(AnvilPart.intersect K a b).volume K - b.volume K| <
      (AnvilPart.intersect K a b).volume K * (1 / 10 ^ 7))
  | some _, none => false
  | none, some _ => false
  | none, none => true

/-- Axis-aligned rectangle with corners `(x1, y1)` / `(x2, y2)`: the shape
type of a concrete model geometry kernel. -/
structure MRect where
  x1 : ℚ
  y1 : ℚ
  x2 : ℚ
  y2 : ℚ
deriving DecidableEq, Repr

/-- Exact area of an axis-aligned rectangle (0 when inverted/empty). -/
def MRect.marea (r : MRect) : ℚ :=
  max 0 (r.x2 - r.x1) * max 0 (r.y2 - r.y1)

/-- Exact intersection of axis-aligned rectangles. -/
def MRect.clip (r s : MRect) : MRect :=
  ⟨max r.x1 s.x1, max r.y1 s.y1, min r.x2 s.x2, min r.y2 s.y2⟩

/-- Bounding box of two axis-aligned rectangles. -/
def MRect.hull (r s : MRect) : MRect :=
  ⟨min r.x1 s.x1, min r.y1 s.y1, max r.x2 s.x2, max r.y2 s.y2⟩

/-- A concrete model of the geometry kernel on axis-aligned rectangles in
the xy plane.  Intersection, area and centroid are exact (they are what the
real kernel computes on axis-aligned faces); `fuse` is the bounding box
(exact for the nested-rectangle configurations used below); faces are the
bounding boxes of their wires. -/
def rectKernel : Kernel MRect MRect Unit where
  fuse := MRect.hull
  common := MRect.clip
  cut := fun r _ => r
  area := MRect.marea
  volume := fun _ => 0
  volCentroid := fun r => ⟨(r.x1 + r.x2) / 2, (r.y1 + r.y2) / 2, 0⟩
  makeEdge := fun e _ =>
    match e with
    | .line p q => ⟨min p.x q.x, min p.y q.y, max p.x q.x, max p.y q.y⟩
    | .circle c r => ⟨c.x - r, c.y - r, c.x + r, c.y + r⟩
  makeFace := fun es =>
    match es with
    | [] => ⟨0, 0, 0, 0⟩
    | e :: rest => rest.foldl MRect.hull e
  translateTo := fun r loc _ => ⟨r.x1 + loc.x, r.y1 + loc.y, r.x2 + loc.x, r.y2 + loc.y⟩
  translate := fun r v => ⟨r.x1 + v.x, r.y1 + v.y, r.x2 + v.x, r.y2 + v.y⟩
  rotateAround := fun r _ _ _ => r
  scaleAbout := fun r _ _ => r
  prism := fun r _ _ => r
  xy := ()

/-- A 10000 × 10000 square centered at the origin. -/
def sketchA : Sketch :=
  Sketch.from_edges [Edge.line ⟨-5000, -5000⟩ ⟨5000, 5000⟩]

/-- A 10000 × (10000 + 1/20000) rectangle centered at the origin: its area
exceeds `sketchA`'s by exactly 1/2. -/
def sketchB : Sketch :=
  Sketch.from_edges
    [Edge.line ⟨-5000, -5000 - 1 / 40000⟩ ⟨5000, 5000 + 1 / 40000⟩]

theorem line_edgesToOcct (p q : Point2D) (h : p ≠ q) :
    edgesToOcct rectKernel [Edge.line p q] () =
      some ⟨min p.x q.x, min p.y q.y, max p.x q.x, max p.y q.y⟩ := by
  simp only [edgesToOcct, List.filterMap_cons, List.filterMap_nil,
    Edge.degenerate, decide_eq_true_eq, if_neg h, rectKernel]
  rfl

theorem from_edges_line_to_occt (p q : Point2D) (h : p ≠ q) :
    Sketch.to_occt rectKernel (Sketch.from_edges [Edge.line p q]) () =
      some (.ok ⟨min p.x q.x, min p.y q.y, max p.x q.x, max p.y q.y⟩) := by
  simp only [Sketch.from_edges, Sketch.to_occt, evalActions,
    SketchAction.apply, line_edgesToOcct p q h]

theorem sketchA_to_occt :
    Sketch.to_occt rectKernel sketchA () =
      some (.ok ⟨-5000, -5000, 5000, 5000⟩) := by
  rw [sketchA, from_edges_line_to_occt _ _ (by norm_num [Point2D.mk.injEq])]
  norm_num [min_def, max_def]

theorem sketchB_to_occt :
    Sketch.to_occt rectKernel sketchB () =
      some (.ok ⟨-5000, -5000 - 1 / 40000, 5000, 5000 + 1 / 40000⟩) := by
  rw [sketchB, from_edges_line_to_occt _ _ (by norm_num [Point2D.mk.injEq])]
  norm_num [min_def, max_def]

theorem rectKernel_xy : rectKernel.xy = () := rfl

theorem evalActions_from_edges_line (p q : Point2D) (h : p ≠ q) :
    evalActions rectKernel () [SketchAction.addEdges [Edge.line p q]] none =
      some (some ⟨min p.x q.x, min p.y q.y, max p.x q.x, max p.y q.y⟩) := by
  simp only [evalActions, SketchAction.apply, line_edgesToOcct p q h]

theorem apply_addEdges_none {S E P : Type} (K : Kernel S E P) (p : P)
    (edges : List Edge) :
    SketchAction.apply K p (.addEdges edges) none =
      some (edgesToOcct K edges p) := by
  simp [SketchAction.apply]

theorem apply_intersect_eq {S E P : Type} (K : Kernel S E P) (p : P)
    (other : List SketchAction) (acc : Option S) :
    SketchAction.apply K p (.intersect other) acc =
      (evalActions K p other none).map fun r =>
        match acc, r with
        | some a, some o =>
          if K.area (K.common a o) = 0 then none else some (K.common a o)
        | _, _ => none := by
  cases h : evalActions K p other none with
  | none => simp [SketchAction.apply, h]
  | some r =>
    cases acc <;> cases r <;>
      simp [SketchAction.apply, h, resultOk, apply_ite some]

theorem evalActions_nil {S E P : Type} (K : Kernel S E P) (p : P)
    (acc : Option S) : evalActions K p [] acc = some acc := by
  simp [evalActions]

theorem evalActions_cons_of_apply {S E P : Type} {K : Kernel S E P} {p : P}
    {a : SketchAction} {acc acc2 : Option S} (rest : List SketchAction)
    (h : SketchAction.apply K p a acc = some acc2) :
    evalActions K p (a :: rest) acc = evalActions K p rest acc2 := by
  rw [evalActions_cons, h]

theorem to_occt_of_eval_some {S E P : Type} {K : Kernel S E P} {p : P}
    {s : Sketch} {f : S} (h : evalActions K p s.actions none = some (some f)) :
    s.to_occt K p = some (.ok f) := by
  rw [Sketch.to_occt, h]

theorem to_occt_of_eval_none {S E P : Type} {K : Kernel S E P} {p : P}
    {s : Sketch} (h : evalActions K p s.actions none = some none) :
    s.to_occt K p = some (.error .emptySketch) := by
  rw [Sketch.to_occt, h]

theorem apply_intersect_some_some {S E P : Type} {K : Kernel S E P} {p : P}
    {other : List SketchAction} {o : S} (s : S)
    (h : evalActions K p other none = some (some o)) :
    SketchAction.apply K p (.intersect other) (some s) =
      some (if K.area (K.common s o) = 0 then none
        else some (K.common s o)) := by
  rw [apply_intersect_eq, h, Option.map_some']

theorem rectKernel_common_def : rectKernel.common = MRect.clip := rfl

theorem rectKernel_area_def : rectKernel.area = MRect.marea := rfl

theorem rectKernel_volCentroid_def :
    rectKernel.volCentroid =
      fun r => ⟨(r.x1 + r.x2) / 2, (r.y1 + r.y2) / 2, 0⟩ := rfl

theorem sketchB_eval :
    evalActions rectKernel () sketchB.actions none =
      some (some ⟨-5000, -5000 - 1 / 40000, 5000, 5000 + 1 / 40000⟩) := by
  have h2 : (⟨-5000, -5000 - 1 / 40000⟩ : Point2D) ≠
      ⟨5000, 5000 + 1 / 40000⟩ := by norm_num [Point2D.mk.injEq]
  have hB1 : SketchAction.apply rectKernel ()
      (.addEdges [Edge.line ⟨-5000, -5000 - 1 / 40000⟩
        ⟨5000, 5000 + 1 / 40000⟩]) none =
      some (some ⟨-5000, -5000 - 1 / 40000, 5000, 5000 + 1 / 40000⟩) := by
    rw [apply_addEdges_none, line_edgesToOcct _ _ h2]
    norm_num [min_def, max_def]
  rw [show sketchB.actions = [SketchAction.addEdges
    [Edge.line ⟨-5000, -5000 - 1 / 40000⟩ ⟨5000, 5000 + 1 / 40000⟩]]
    from rfl]
  rw [evalActions_cons_of_apply _ hB1, evalActions_nil]

theorem clip_AB :
    MRect.clip ⟨-5000, -5000, 5000, 5000⟩
      ⟨-5000, -5000 - 1 / 40000, 5000, 5000 + 1 / 40000⟩ =
      ⟨-5000, -5000, 5000, 5000⟩ := by
  rw [MRect.clip]
  norm_num [min_def, max_def]

theorem sketchAB_intersect_to_occt :
    Sketch.to_occt rectKernel (sketchA.intersect sketchB) () =
      some (.ok ⟨-5000, -5000, 5000, 5000⟩) := by
  have h1 : (⟨-5000, -5000⟩ : Point2D) ≠ ⟨5000, 5000⟩ := by
    norm_num [Point2D.mk.injEq]
  have hA1 : SketchAction.apply rectKernel ()
      (.addEdges [Edge.line ⟨-5000, -5000⟩ ⟨5000, 5000⟩]) none =
      some (some ⟨-5000, -5000, 5000, 5000⟩) := by
    rw [apply_addEdges_none, line_edgesToOcct _ _ h1]
    norm_num [min_def, max_def]
  have hI : SketchAction.apply rectKernel ()
      (.intersect sketchB.actions) (some ⟨-5000, -5000, 5000, 5000⟩) =
      some (some ⟨-5000, -5000, 5000, 5000⟩) := by
    rw [apply_intersect_some_some _ sketchB_eval, rectKernel_common_def,
      rectKernel_area_def, clip_AB]
    rw [if_neg]
    rw [MRect.marea]
    norm_num [max_def]
  apply to_occt_of_eval_some
  rw [show (sketchA.intersect sketchB).actions =
    SketchAction.addEdges [Edge.line ⟨-5000, -5000⟩ ⟨5000, 5000⟩] ::
    [SketchAction.intersect sketchB.actions] from rfl]
  rw [evalActions_cons_of_apply _ hA1, evalActions_cons_of_apply _ hI,
    evalActions_nil]

theorem sketchA_area : Sketch.area rectKernel sketchA = some (10 ^ 8) := by
  rw [Sketch.area, rectKernel_xy, sketchA_to_occt]
  show some (rectKernel.area ⟨-5000, -5000, 5000, 5000⟩) = some (10 ^ 8)
  rw [rectKernel_area_def, MRect.marea]
  norm_num [max_def]

theorem sketchB_area :
    Sketch.area rectKernel sketchB = some (10 ^ 8 + 1 / 2) := by
  rw [Sketch.area, rectKernel_xy, sketchB_to_occt]
  show some (rectKernel.area
    ⟨-5000, -5000 - 1 / 40000, 5000, 5000 + 1 / 40000⟩) =
    some (10 ^ 8 + 1 / 2)
  rw [rectKernel_area_def, MRect.marea]
  norm_num [max_def]

theorem sketchAB_area :
    Sketch.area rectKernel (sketchA.intersect sketchB) = some (10 ^ 8) := by
  rw [Sketch.area, rectKernel_xy, sketchAB_intersect_to_occt]
  show some (rectKernel.area ⟨-5000, -5000, 5000, 5000⟩) = some (10 ^ 8)
  rw [rectKernel_area_def, MRect.marea]
  norm_num [max_def]

theorem sketchA_center :
    Sketch.center rectKernel sketchA = some (Except.ok ⟨0, 0⟩) := by
  rw [Sketch.center, rectKernel_xy, sketchA_to_occt]
  show some (Except.ok (⟨((-5000 : ℚ) + 5000) / 2,
    ((-5000 : ℚ) + 5000) / 2⟩ : Point2D)) =
    some (Except.ok (⟨0, 0⟩ : Point2D))
  norm_num [Point2D.mk.injEq]

theorem sketchB_center :
    Sketch.center rectKernel sketchB = some (Except.ok ⟨0, 0⟩) := by
  rw [Sketch.center, rectKernel_xy, sketchB_to_occt]
  show some (Except.ok (⟨((-5000 : ℚ) + 5000) / 2,
    ((-5000 - 1 / 40000 : ℚ) + (5000 + 1 / 40000)) / 2⟩ : Point2D)) =
    some (Except.ok (⟨0, 0⟩ : Point2D))
  norm_num [Point2D.mk.injEq]

theorem exceptPointNe_eq_false_iff (u v : Except AnvilError Point2D) :
    exceptPointNe u v = false ↔ u = v := by
  cases u <;> cases v <;> simp [exceptPointNe]

/-- C2 (amended): Sketch `==` returns `true` iff the `center()` results agree
(as `Result` values, so two empty sketches agree) and — when the intersection
evaluates — its area is within *absolute* tolerance `1e-7` of both operands'
own areas (a failed intersection evaluation counts as equal); Part `==`
omits the centroid pre-check and compares volumes with tolerance *relative
to the intersection volume*; two empty Parts are equal and an empty Part
never equals a non-empty one. -/
theorem sketch_part_eq_measure_characterization
    (S E P : Type) (K : Kernel S E P) (a b : Sketch)
    (ca cb : Except AnvilError Point2D) (aa ab : ℚ)
    (ir : Except AnvilError S)
    (hca : a.center K = some ca) (hcb : b.center K = some cb)
    (haa : a.area K = some aa) (hab : b.area K = some ab)
    (hir : (a.intersect b).to_occt K K.xy = some ir) :
    (Sketch.beq K a b = some true ↔
      (ca = cb ∧ ∀ i, ir = .ok i →
        |K.area i - aa| < 1 / 10 ^ 7 ∧ |K.area i - ab| < 1 / 10 ^ 7)) ∧
    (∀ x y : AnvilPart S,
      AnvilPart.beq K x y = true ↔
        ((x.inner = none ∧ y.inner = none) ∨
         (x.inner ≠ none ∧ y.inner ≠ none ∧
          |(AnvilPart.intersect K x y).volume K - x.volume K| <
            (AnvilPart.intersect K x y).volume K * (1 / 10 ^ 7) ∧
          |(AnvilPart.intersect K x y).volume K - y.volume K| <
            (AnvilPart.intersect K x y).volume K * (1 / 10 ^ 7)))) := by
  constructor
  · rw [Sketch.beq, hca, hcb, hir, haa, hab]
    simp only []
    by_cases hcc : ca = cb
    · rw [hcc, (exceptPointNe_eq_false_iff cb cb).mpr rfl]
      cases ir with
      | error e =>
        exact iff_of_true rfl ⟨rfl, fun i h => nomatch h⟩
      | ok i0 =>
        simp only [Bool.false_eq_true, if_false, Option.some.injEq,
          Bool.and_eq_true, decide_eq_true_eq]
        constructor
        · rintro ⟨h1, h2⟩
          refine ⟨trivial, fun i h => ?_⟩
          injection h with h
          subst h
          exact ⟨h1, h2⟩
        · rintro ⟨-, h⟩
          exact (h i0 rfl)
    · have htrue : exceptPointNe ca cb = true := by
        rcases Bool.eq_false_or_eq_true (exceptPointNe ca cb) with h | h
        · exact h
        · exact absurd ((exceptPointNe_eq_false_iff _ _).mp h) hcc
      rw [htrue, if_pos rfl]
      exact iff_of_false (by simp) (fun h => hcc h.1)
  · intro x y
    cases hx : x.inner <;> cases hy : y.inner <;>
      simp [AnvilPart.beq, hx, hy]

theorem beq_AB : Sketch.beq rectKernel sketchA sketchB = some false := by
  rw [Sketch.beq, sketchA_center, sketchB_center, rectKernel_xy,
    sketchAB_intersect_to_occt, sketchA_area, sketchB_area]
  simp only []
  rw [(exceptPointNe_eq_false_iff _ _).mpr rfl]
  simp only [Bool.false_eq_true, if_false, Option.some.injEq]
  rw [rectKernel_area_def, MRect.marea]
  have h2 : ¬ (|max 0 ((5000 : ℚ) - -5000) * max 0 ((5000 : ℚ) - -5000) -
      (10 ^ 8 + 1 / 2)| < 1 / 10 ^ 7) := by
    norm_num [max_def]
    rw [abs_of_nonneg (by norm_num : (0 : ℚ) ≤ 1 / 2)]
    norm_num
  rw [decide_eq_false h2]
  simp

/-- C2 counterexample: over the exact rectangle kernel, `sketchA` (a
10000 × 10000 square) and `sketchB` (the same square widened by 1/40000 on
both vertical sides) have equal centers and intersection area within
relative tolerance 1e-7 of both areas — the claim (relative tolerance) says
they are equal — yet `Sketch::eq` returns `false`, because the code compares
with absolute tolerance `1e-7` and the area difference is 1/2. -/
theorem sketch_eq_relative_tolerance_counterexample :
    sketchEqSpecClaim rectKernel sketchA sketchB ∧
    Sketch.beq rectKernel sketchA sketchB = some false := by
  refine ⟨⟨?_, ⟨-5000, -5000, 5000, 5000⟩, ?_, 10 ^ 8, 10 ^ 8 + 1 / 2,
    sketchA_area, sketchB_area, ?_, ?_⟩, beq_AB⟩
  · rw [sketchA_center, sketchB_center]
  · rw [rectKernel_xy]
    exact sketchAB_intersect_to_occt
  · rw [rectKernel_area_def, MRect.marea]
    norm_num [max_def]
  · rw [rectKernel_area_def, MRect.marea]
    norm_num [max_def]
    rw [abs_of_nonneg (by norm_num : (0 : ℚ) ≤ 1 / 2)]
    norm_num

theorem sketch_part_eq_measure_characterization_witness :
    (Sketch.beq rectKernel sketchA sketchB = some true ↔
      ((Except.ok ⟨0, 0⟩ : Except AnvilError Point2D) = Except.ok ⟨0, 0⟩ ∧
        ∀ i, (Except.ok ⟨-5000, -5000, 5000, 5000⟩ :
            Except AnvilError MRect) = .ok i →
          |rectKernel.area i - 10 ^ 8| < 1 / 10 ^ 7 ∧
          |rectKernel.area i - (10 ^ 8 + 1 / 2)| < 1 / 10 ^ 7)) ∧
    (∀ x y : AnvilPart MRect,
      AnvilPart.beq rectKernel x y = true ↔
        ((x.inner = none ∧ y.inner = none) ∨
         (x.inner ≠ none ∧ y.inner ≠ none ∧
          |(AnvilPart.intersect rectKernel x y).volume rectKernel -
            x.volume rectKernel| <
            (AnvilPart.intersect rectKernel x y).volume rectKernel *
              (1 / 10 ^ 7) ∧
          |(AnvilPart.intersect rectKernel x y).volume rectKernel -
            y.volume rectKernel| <
            (AnvilPart.intersect rectKernel x y).volume rectKernel *
              (1 / 10 ^ 7)))) :=
  sketch_part_eq_measure_characterization MRect MRect Unit rectKernel
    sketchA sketchB _ _ _ _ _ sketchA_center sketchB_center sketchA_area
    sketchB_area (by rw [rectKernel_xy]; exact sketchAB_intersect_to_occt)

theorem to_occt_error_emptySketch {S E P : Type} {K : Kernel S E P} {p : P}
    {s : Sketch} {e : AnvilError} (h : s.to_occt K p = some (.error e)) :
    e = .emptySketch := by
  rw [Sketch.to_occt] at h
  cases hev : evalActions K p s.actions none with
  | none => rw [hev] at h; exact nomatch h
  | some r =>
    cases r with
    | none =>
      rw [hev] at h
      simp only [Option.some.injEq] at h
      injection h with h1
      exact h1.symm
    | some f => rw [hev] at h; exact nomatch h

/-- C6: for every Sketch, plane and thickness (negative accepted),
`Sketch::extrude` returns `Err(EmptySketch)` iff the thickness is zero or
the sketch evaluates to empty on that plane, and otherwise returns `Ok` of
the Part built by sweeping the evaluated face along the plane normal scaled
by the thickness (the `prism` kernel call).  The hypothesis excludes the
evaluation panic, which cannot occur for API-reachable sketches. -/
theorem sketch_extrude_err_iff
    (S E P : Type) (K : Kernel S E P) (p : P) (s : Sketch) (t : Length)
    (hnp : s.to_occt K p ≠ none) :
    (Sketch.extrude K s p t = some (.error .emptySketch) ↔
      (t = 0 ∨ s.to_occt K p = some (.error .emptySketch))) ∧
    (∀ shape, t ≠ 0 → s.to_occt K p = some (.ok shape) →
      Sketch.extrude K s p t = some (.ok ⟨some (K.prism shape p t)⟩)) := by
  by_cases ht : t = 0
  · constructor
    · rw [Sketch.extrude, if_pos ht]
      exact iff_of_true rfl (Or.inl ht)
    · intro shape ht' _
      exact absurd ht ht'
  · constructor
    · rw [Sketch.extrude, if_neg ht]
      cases hocc : s.to_occt K p with
      | none => exact absurd hocc hnp
      | some r =>
        cases r with
        | error e =>
          have he := to_occt_error_emptySketch hocc
          subst he
          exact iff_of_true rfl (Or.inr rfl)
        | ok shape =>
          refine iff_of_false (by simp) ?_
          rintro (h | h)
          · exact ht h
          · simp at h
    · intro shape ht' hocc
      rw [Sketch.extrude, if_neg ht, hocc]

theorem sketch_extrude_err_iff_witness :
    (Sketch.extrude rectKernel sketchA () (-3) =
        some (.error .emptySketch) ↔
      ((-3 : ℚ) = 0 ∨ Sketch.to_occt rectKernel sketchA () =
        some (.error .emptySketch))) ∧
    (∀ shape, (-3 : ℚ) ≠ 0 →
      Sketch.to_occt rectKernel sketchA () = some (.ok shape) →
      Sketch.extrude rectKernel sketchA () (-3) =
        some (.ok ⟨some (rectKernel.prism shape () (-3))⟩)) :=
  sketch_extrude_err_iff MRect MRect Unit rectKernel () sketchA (-3)
    (by rw [sketchA_to_occt]; simp)

/-- Axis-aligned box: the shape type of a concrete 3D model kernel. -/
structure MBox where
  x1 : ℚ
  y1 : ℚ
  z1 : ℚ
  x2 : ℚ
  y2 : ℚ
  z2 : ℚ
deriving DecidableEq, Repr

/-- Exact volume of an axis-aligned box (0 when degenerate or inverted). -/
def MBox.mvolume (b : MBox) : ℚ :=
  max 0 (b.x2 - b.x1) * max 0 (b.y2 - b.y1) * max 0 (b.z2 - b.z1)

/-- Exact intersection of axis-aligned boxes (possibly inverted). -/
def MBox.clip (a b : MBox) : MBox :=
  ⟨max a.x1 b.x1, max a.y1 b.y1, max a.z1 b.z1,
   min a.x2 b.x2, min a.y2 b.y2, min a.z2 b.z2⟩

/-- Bounding box of two axis-aligned boxes. -/
def MBox.hull (a b : MBox) : MBox :=
  ⟨min a.x1 b.x1, min a.y1 b.y1, min a.z1 b.z1,
   max a.x2 b.x2, max a.y2 b.y2, max a.z2 b.z2⟩

/-- Translation of a box by a vector. -/
def MBox.mtranslate (b : MBox) (v : Point3D) : MBox :=
  ⟨b.x1 + v.x, b.y1 + v.y, b.z1 + v.z, b.x2 + v.x, b.y2 + v.y, b.z2 + v.z⟩

/-- A concrete model of the geometry kernel on axis-aligned boxes: volume,
centroid, intersection and translation are exact (what the real kernel
computes on such solids).  An intersection of disjoint boxes is an inverted
box of volume 0 — matching the real kernel, whose boolean-common of disjoint
solids is an empty compound shape handle with volume 0. -/
def boxKernel : Kernel MBox Unit Unit where
  fuse := MBox.hull
  common := MBox.clip
  cut := fun a _ => a
  area := fun _ => 0
  volume := MBox.mvolume
  volCentroid := fun b =>
    ⟨(b.x1 + b.x2) / 2, (b.y1 + b.y2) / 2, (b.z1 + b.z2) / 2⟩
  makeEdge := fun _ _ => ()
  makeFace := fun _ => ⟨0, 0, 0, 0, 0, 0⟩
  translateTo := fun b _ _ => b
  translate := MBox.mtranslate
  rotateAround := fun b _ _ _ => b
  scaleAbout := fun b _ _ => b
  prism := fun b _ _ => b
  xy := ()

/-- A cube with corners `(0,0,0)` and `(2/5, 2/5, 2/5)`; its centroid
`(1/5, 1/5, 1/5)` is not a multiple of one third. -/
def box02 : MBox := ⟨0, 0, 0, 2 / 5, 2 / 5, 2 / 5⟩

/-- C4: `Part::center` does not round the kernel centroid to 9 decimal
places: the scale factor `10 ^ 9` in `round` is the Rust bitwise XOR
`10 XOR 9 = 3`, so each centroid coordinate `c` comes back as
`round(c * 3) / 3`, quantized to thirds (e.g. `round(0.2, 9) = 1/3 ≠ 0.2`,
while genuine 9-decimal rounding would leave `0.2` unchanged). -/
theorem part_center_scale_is_xor :
    Nat.xor 10 9 = 3 ∧
    (∀ x : ℚ, rustRound x 9 =
      ((roundHalfAwayFromZero (x * 3) : ℤ) : ℚ) / 3) ∧
    (∀ (S E P : Type) (K : Kernel S E P) (a : AnvilPart S) (s : S),
      a.inner = some s →
      AnvilPart.center K a = .ok
        ⟨((roundHalfAwayFromZero ((K.volCentroid s).x * 3) : ℤ) : ℚ) / 3,
         ((roundHalfAwayFromZero ((K.volCentroid s).y * 3) : ℤ) : ℚ) / 3,
         ((roundHalfAwayFromZero ((K.volCentroid s).z * 3) : ℤ) : ℚ) / 3⟩) ∧
    rustRound (2 / 10) 9 ≠ 2 / 10 := by
  have hxor : ((Nat.xor 10 9 : ℕ) : ℚ) = 3 := by
    rw [show Nat.xor 10 9 = 3 from rfl]
    norm_num
  have h2 : ∀ x : ℚ, rustRound x 9 =
      ((roundHalfAwayFromZero (x * 3) : ℤ) : ℚ) / 3 := by
    intro x
    rw [rustRound]
    simp only [hxor]
  refine ⟨by decide, h2, ?_, ?_⟩
  · intro S E P K a s h
    rw [AnvilPart.center, h]
    simp only [h2]
  · rw [h2]
    have hfl : roundHalfAwayFromZero (2 / 10 * 3) = 1 := by
      rw [roundHalfAwayFromZero, if_neg (by norm_num)]
      rw [show (2 : ℚ) / 10 * 3 + 1 / 2 = 11 / 10 by norm_num]
      norm_num
    rw [hfl]
    norm_num

theorem part_center_scale_is_xor_witness :
    AnvilPart.center boxKernel ⟨some box02⟩ =
      .ok ⟨1 / 3, 1 / 3, 1 / 3⟩ := by
  have h := part_center_scale_is_xor.2.2.1 MBox Unit Unit boxKernel
    ⟨some box02⟩ box02 rfl
  rw [h]
  have hc : boxKernel.volCentroid box02 = ⟨1 / 5, 1 / 5, 1 / 5⟩ := by
    show (⟨(box02.x1 + box02.x2) / 2, (box02.y1 + box02.y2) / 2,
      (box02.z1 + box02.z2) / 2⟩ : Point3D) = ⟨1 / 5, 1 / 5, 1 / 5⟩
    rw [box02]
    norm_num
  rw [hc]
  have hfl : roundHalfAwayFromZero ((1 : ℚ) / 5 * 3) = 1 := by
    rw [roundHalfAwayFromZero, if_neg (by norm_num)]
    rw [show (1 : ℚ) / 5 * 3 + 1 / 2 = 11 / 10 by norm_num]
    norm_num
  show Except.ok (⟨((roundHalfAwayFromZero ((1 : ℚ) / 5 * 3) : ℤ) : ℚ) / 3,
    ((roundHalfAwayFromZero ((1 : ℚ) / 5 * 3) : ℤ) : ℚ) / 3,
    ((roundHalfAwayFromZero ((1 : ℚ) / 5 * 3) : ℤ) : ℚ) / 3⟩ : Point3D) =
    .ok ⟨1 / 3, 1 / 3, 1 / 3⟩
  rw [hfl]
  norm_num

/-- C3 evaluated at the failing input: for the cube with corners `(0,0,0)`
and `(2/5,2/5,2/5)` (true centroid `(1/5,1/5,1/5)`), `move_to(origin)`
translates by `origin - center()` where `center()` is the thirds-quantized
`(1/3,1/3,1/3)` (see the `round` bug, C4), so the resulting solid's true
centroid is `(-2/15,-2/15,-2/15) ≠ origin`, contradicting the spec's "the
centroid lands exactly at `point`".  The empty part maps to the empty
part. -/
theorem part_move_to_rounded_centroid_failing_input :
    AnvilPart.move_to boxKernel ⟨some box02⟩ ⟨0, 0, 0⟩ =
      ⟨some ⟨-(1 / 3), -(1 / 3), -(1 / 3), 1 / 15, 1 / 15, 1 / 15⟩⟩ ∧
    boxKernel.volCentroid
      ⟨-(1 / 3), -(1 / 3), -(1 / 3), 1 / 15, 1 / 15, 1 / 15⟩ =
      ⟨-(2 / 15), -(2 / 15), -(2 / 15)⟩ ∧
    (⟨-(2 / 15), -(2 / 15), -(2 / 15)⟩ : Point3D) ≠ ⟨0, 0, 0⟩ ∧
    AnvilPart.move_to boxKernel (⟨none⟩ : AnvilPart MBox) ⟨0, 0, 0⟩ =
      ⟨none⟩ := by
  have hfl : roundHalfAwayFromZero ((1 : ℚ) / 5 * 3) = 1 := by
    rw [roundHalfAwayFromZero, if_neg (by norm_num)]
    rw [show (1 : ℚ) / 5 * 3 + 1 / 2 = 11 / 10 by norm_num]
    norm_num
  refine ⟨?_, ?_, ?_, ?_⟩
  · rw [AnvilPart.move_to]
    show (⟨some (boxKernel.translate box02 (Point3D.sub ⟨0, 0, 0⟩
      ⟨rustRound ((boxKernel.volCentroid box02).x) 9,
       rustRound ((boxKernel.volCentroid box02).y) 9,
       rustRound ((boxKernel.volCentroid box02).z) 9⟩))⟩ : AnvilPart MBox) =
      ⟨some ⟨-(1 / 3), -(1 / 3), -(1 / 3), 1 / 15, 1 / 15, 1 / 15⟩⟩
    have hc : boxKernel.volCentroid box02 = ⟨1 / 5, 1 / 5, 1 / 5⟩ := by
      show (⟨(box02.x1 + box02.x2) / 2, (box02.y1 + box02.y2) / 2,
        (box02.z1 + box02.z2) / 2⟩ : Point3D) = ⟨1 / 5, 1 / 5, 1 / 5⟩
      rw [box02]
      norm_num
    rw [hc]
    have hr : rustRound ((1 : ℚ) / 5) 9 = 1 / 3 := by
      rw [rustRound]
      show ((roundHalfAwayFromZero ((1 : ℚ) / 5 *
        ((Nat.xor 10 9 : ℕ) : ℚ)) : ℤ) : ℚ) / ((Nat.xor 10 9 : ℕ) : ℚ) =
        1 / 3
      rw [show ((Nat.xor 10 9 : ℕ) : ℚ) = 3 from by
        rw [show Nat.xor 10 9 = 3 from rfl]; norm_num]
      rw [hfl]
      norm_num
    show (⟨some (MBox.mtranslate box02 (Point3D.sub ⟨0, 0, 0⟩
      ⟨rustRound ((1 : ℚ) / 5) 9, rustRound ((1 : ℚ) / 5) 9,
       rustRound ((1 : ℚ) / 5) 9⟩))⟩ : AnvilPart MBox) =
      ⟨some ⟨-(1 / 3), -(1 / 3), -(1 / 3), 1 / 15, 1 / 15, 1 / 15⟩⟩
    rw [hr, Point3D.sub, MBox.mtranslate, box02]
    norm_num [MBox.mk.injEq]
  · show (⟨((-(1 / 3) : ℚ) + 1 / 15) / 2, ((-(1 / 3) : ℚ) + 1 / 15) / 2,
      ((-(1 / 3) : ℚ) + 1 / 15) / 2⟩ : Point3D) =
      ⟨-(2 / 15), -(2 / 15), -(2 / 15)⟩
    norm_num
  · intro h
    rw [Point3D.mk.injEq] at h
    norm_num at h
  · rw [AnvilPart.move_to]

/-- C5 counterexample: for two disjoint unit cubes, `Part::intersect`
returns a Part that still owns a kernel shape handle (`inner` is `Some`) of
volume 0 — it does not collapse a measure-0 intersection to the empty Part
as the claim (and the Sketch fold) would have it. -/
theorem part_intersect_no_collapse_counterexample :
    (AnvilPart.intersect boxKernel ⟨some ⟨0, 0, 0, 1, 1, 1⟩⟩
      ⟨some ⟨2, 2, 2, 3, 3, 3⟩⟩).inner ≠ none ∧
    AnvilPart.volume boxKernel (AnvilPart.intersect boxKernel
      ⟨some ⟨0, 0, 0, 1, 1, 1⟩⟩ ⟨some ⟨2, 2, 2, 3, 3, 3⟩⟩) = 0 := by
  constructor
  · rw [AnvilPart.intersect]
    simp
  · rw [AnvilPart.intersect]
    show MBox.mvolume (boxKernel.common ⟨0, 0, 0, 1, 1, 1⟩
      ⟨2, 2, 2, 3, 3, 3⟩) = 0
    show MBox.mvolume (MBox.clip ⟨0, 0, 0, 1, 1, 1⟩ ⟨2, 2, 2, 3, 3, 3⟩) = 0
    rw [MBox.clip]
    norm_num [min_def, max_def]
    rw [MBox.mvolume]
    norm_num [max_def]

/-- C5 (amended): `Part::add` / `intersect` / `subtract` follow the
identity/absorbing table of the empty Part — empty is the identity for
`add`, absorbing for `intersect`, `subtract` returns the receiver unchanged
for an empty subtrahend and the empty Part for an empty receiver — except
that `intersect` of two non-empty Parts always wraps the kernel
intersection handle and never collapses a measure-0 result to the empty
Part. -/
theorem part_bool_ops_identity_table
    (S E P : Type) (K : Kernel S E P) :
    (∀ (a b : AnvilPart S) (x y : S), a.inner = some x → b.inner = some y →
      AnvilPart.add K a b = ⟨some (K.fuse x y)⟩ ∧
      AnvilPart.intersect K a b = ⟨some (K.common x y)⟩ ∧
      AnvilPart.subtract K a b = ⟨some (K.cut x y)⟩) ∧
    (∀ a b : AnvilPart S, b.inner = none →
      AnvilPart.add K a b = a ∧ AnvilPart.subtract K a b = a ∧
      (AnvilPart.intersect K a b).inner = none) ∧
    (∀ a b : AnvilPart S, a.inner = none →
      AnvilPart.add K a b = b ∧ AnvilPart.subtract K a b = ⟨none⟩ ∧
      (AnvilPart.intersect K a b).inner = none) := by
  refine ⟨?_, ?_, ?_⟩
  · intro a b x y hx hy
    obtain ⟨ai⟩ := a
    obtain ⟨bi⟩ := b
    simp only [] at hx hy
    subst hx
    subst hy
    exact ⟨rfl, rfl, rfl⟩
  · intro a b hb
    obtain ⟨ai⟩ := a
    obtain ⟨bi⟩ := b
    simp only [] at hb
    subst hb
    cases ai <;> exact ⟨rfl, rfl, rfl⟩
  · intro a b ha
    obtain ⟨ai⟩ := a
    obtain ⟨bi⟩ := b
    simp only [] at ha
    subst ha
    cases bi <;> exact ⟨rfl, rfl, rfl⟩

theorem part_bool_ops_identity_table_witness :
    (AnvilPart.add boxKernel ⟨some ⟨0, 0, 0, 1, 1, 1⟩⟩
        ⟨some ⟨2, 2, 2, 3, 3, 3⟩⟩ =
      ⟨some (boxKernel.fuse ⟨0, 0, 0, 1, 1, 1⟩ ⟨2, 2, 2, 3, 3, 3⟩)⟩ ∧
     AnvilPart.intersect boxKernel ⟨some ⟨0, 0, 0, 1, 1, 1⟩⟩
        ⟨some ⟨2, 2, 2, 3, 3, 3⟩⟩ =
      ⟨some (boxKernel.common ⟨0, 0, 0, 1, 1, 1⟩ ⟨2, 2, 2, 3, 3, 3⟩)⟩ ∧
     AnvilPart.subtract boxKernel ⟨some ⟨0, 0, 0, 1, 1, 1⟩⟩
        ⟨some ⟨2, 2, 2, 3, 3, 3⟩⟩ =
      ⟨some (boxKernel.cut ⟨0, 0, 0, 1, 1, 1⟩ ⟨2, 2, 2, 3, 3, 3⟩)⟩) ∧
    (AnvilPart.add boxKernel ⟨some ⟨0, 0, 0, 1, 1, 1⟩⟩
        (⟨none⟩ : AnvilPart MBox) = ⟨some ⟨0, 0, 0, 1, 1, 1⟩⟩ ∧
     AnvilPart.subtract boxKernel ⟨some ⟨0, 0, 0, 1, 1, 1⟩⟩
        (⟨none⟩ : AnvilPart MBox) = ⟨some ⟨0, 0, 0, 1, 1, 1⟩⟩ ∧
     (AnvilPart.intersect boxKernel ⟨some ⟨0, 0, 0, 1, 1, 1⟩⟩
        (⟨none⟩ : AnvilPart MBox)).inner = none) ∧
    (AnvilPart.add boxKernel (⟨none⟩ : AnvilPart MBox)
        ⟨some ⟨2, 2, 2, 3, 3, 3⟩⟩ = ⟨some ⟨2, 2, 2, 3, 3, 3⟩⟩ ∧
     AnvilPart.subtract boxKernel (⟨none⟩ : AnvilPart MBox)
        ⟨some ⟨2, 2, 2, 3, 3, 3⟩⟩ = ⟨none⟩ ∧
     (AnvilPart.intersect boxKernel (⟨none⟩ : AnvilPart MBox)
        ⟨some ⟨2, 2, 2, 3, 3, 3⟩⟩).inner = none) :=
  ⟨(part_bool_ops_identity_table MBox Unit Unit boxKernel).1
      ⟨some ⟨0, 0, 0, 1, 1, 1⟩⟩ ⟨some ⟨2, 2, 2, 3, 3, 3⟩⟩ _ _ rfl rfl,
   (part_bool_ops_identity_table MBox Unit Unit boxKernel).2.1
      ⟨some ⟨0, 0, 0, 1, 1, 1⟩⟩ ⟨none⟩ rfl,
   (part_bool_ops_identity_table MBox Unit Unit boxKernel).2.2
      ⟨none⟩ ⟨some ⟨2, 2, 2, 3, 3, 3⟩⟩ rfl⟩

/-- Rust `Dir3` (`src/quantities/dir3.rs`): raw directional components, over ℝ
because `magnitude` takes a square root. -/
structure Dir3 where
  x : ℝ
  y : ℝ
  z : ℝ

/-- Rust `Dir3::magnitude`: `(x² + y² + z²).sqrt()`. -/
noncomputable def Dir3.magnitude (d : Dir3) : ℝ :=
  Real.sqrt (d.x ^ 2 + d.y ^ 2 + d.z ^ 2)

/-- The direction-related variants of `Error` (`src/errors.rs`).
`zeroVector2` models the payload-free `Error::ZeroVector` that
`Dir2D::try_from` returns. -/
inductive VecError : Type where
  | zeroVector (v : Dir3)
  | zeroVector2
  | vectorsNotOrthogonal (a b : Dir3)

/-- Rust `Dir3::normalize`: fail with `ZeroVector` when `magnitude == 0.0`
exactly, else divide every component by the magnitude. -/
noncomputable def Dir3.normalize (d : Dir3) : Except VecError Dir3 :=
  if d.magnitude = 0 then .error (.zeroVector d)
  else .ok ⟨d.x / d.magnitude, d.y / d.magnitude, d.z / d.magnitude⟩

/-- Rust `Dir3::dot`. -/
def Dir3.dot (a b : Dir3) : ℝ := a.x * b.x + a.y * b.y + a.z * b.z

/-- Rust `Dir3::cross`. -/
def Dir3.cross (a b : Dir3) : Dir3 :=
  ⟨a.y * b.z - a.z * b.y, a.z * b.x - a.x * b.z, a.x * b.y - a.y * b.x⟩

/-- Rust `Dir3::from` on a component tuple. -/
def Dir3.fromTuple (v : ℝ × ℝ × ℝ) : Dir3 := ⟨v.1, v.2.1, v.2.2⟩

/-- Rust `Dir2D` (`src/quantities/dir2d.rs`). -/
structure Dir2D where
  x : ℝ
  y : ℝ

/-- Rust `Dir2D::try_from`: fail with `ZeroVector` when the magnitude
`(x² + y²).sqrt()` is exactly zero, else normalize. -/
noncomputable def Dir2D.try_from (x y : ℝ) : Except VecError Dir2D :=
  let magnitude := Real.sqrt (x ^ 2 + y ^ 2)
  if magnitude = 0 then .error .zeroVector2
  else .ok ⟨x / magnitude, y / magnitude⟩

/-- A `Point3D` over ℝ for the plane development. -/
structure Point3R where
  x : ℝ
  y : ℝ
  z : ℝ

/-- Rust `Plane` (`src/quantities/plane.rs`): origin plus two axis directions. -/
structure PlaneR where
  origin : Point3R
  x_axis : Dir3
  y_axis : Dir3

/-- Rust `Plane::new`: reject when the raw axis dot product is not `< 1e-9`
(`VectorsNotOrthogonal`), otherwise normalize both axes, propagating
`ZeroVector` failures. -/
noncomputable def PlaneR.new (origin : Point3R) (x_axis y_axis : ℝ × ℝ × ℝ) :
    Except VecError PlaneR :=
  let xa := Dir3.fromTuple x_axis
  let ya := Dir3.fromTuple y_axis
  if ¬ (xa.dot ya < 1 / 10 ^ 9) then .error (.vectorsNotOrthogonal xa ya)
  else
    match xa.normalize with
    | .error e => .error e
    | .ok xn =>
      match ya.normalize with
      | .error e => .error e
      | .ok yn => .ok ⟨origin, xn, yn⟩

/-- Rust `Plane::normal`: the cross product of the two axes. -/
def PlaneR.normal (p : PlaneR) : Dir3 := p.x_axis.cross p.y_axis

/-- The value of `Plane::xy()`. -/
def planeXY : PlaneR := ⟨⟨0, 0, 0⟩, ⟨1, 0, 0⟩, ⟨0, 1, 0⟩⟩

theorem normalize_error_is_zeroVector (d : Dir3) (e : VecError)
    (h : d.normalize = .error e) : e = .zeroVector d := by
  rw [Dir3.normalize] at h
  split at h
  · injection h with h1
    exact h1.symm
  · exact nomatch h

/-- C9: direction construction by normalization fails with `ZeroVector` iff
the input magnitude is exactly `0.0` — no epsilon — and every input of
nonzero magnitude yields the components divided by the magnitude; for both
`Dir3::normalize` and `Dir2D::try_from`. -/
theorem direction_normalize_zero_iff :
    (∀ d : Dir3,
      (d.normalize = .error (.zeroVector d) ↔ d.magnitude = 0) ∧
      (d.magnitude ≠ 0 →
        d.normalize = .ok ⟨d.x / d.magnitude, d.y / d.magnitude,
          d.z / d.magnitude⟩)) ∧
    (∀ x y : ℝ,
      (Dir2D.try_from x y = .error .zeroVector2 ↔
        Real.sqrt (x ^ 2 + y ^ 2) = 0) ∧
      (Real.sqrt (x ^ 2 + y ^ 2) ≠ 0 →
        Dir2D.try_from x y = .ok ⟨x / Real.sqrt (x ^ 2 + y ^ 2),
          y / Real.sqrt (x ^ 2 + y ^ 2)⟩)) := by
  constructor
  · intro d
    constructor
    · rw [Dir3.normalize]
      by_cases h : d.magnitude = 0
      · rw [if_pos h]
        exact iff_of_true rfl h
      · rw [if_neg h]
        exact iff_of_false (by simp) h
    · intro h
      rw [Dir3.normalize, if_neg h]
  · intro x y
    constructor
    · rw [Dir2D.try_from]
      by_cases h : Real.sqrt (x ^ 2 + y ^ 2) = 0
      · rw [if_pos h]
        exact iff_of_true rfl h
      · rw [if_neg h]
        exact iff_of_false (by simp) h
    · intro h
      rw [Dir2D.try_from, if_neg h]

theorem direction_normalize_zero_iff_witness :
    Dir3.normalize ⟨0, 0, 0⟩ = .error (.zeroVector ⟨0, 0, 0⟩) ∧
    Dir3.magnitude ⟨3, 0, 4⟩ = 5 ∧
    Dir3.normalize ⟨3, 0, 4⟩ = .ok ⟨3 / 5, 0 / 5, 4 / 5⟩ := by
  have hm0 : Dir3.magnitude ⟨0, 0, 0⟩ = 0 := by
    rw [Dir3.magnitude]
    rw [show (0 : ℝ) ^ 2 + 0 ^ 2 + 0 ^ 2 = 0 by norm_num]
    exact Real.sqrt_zero
  have hm : Dir3.magnitude ⟨3, 0, 4⟩ = 5 := by
    rw [Dir3.magnitude]
    rw [show (3 : ℝ) ^ 2 + 0 ^ 2 + 4 ^ 2 = 5 ^ 2 by norm_num]
    exact Real.sqrt_sq (by norm_num)
  refine ⟨?_, hm, ?_⟩
  · exact ((direction_normalize_zero_iff.1 ⟨0, 0, 0⟩).1).mpr hm0
  · have h := (direction_normalize_zero_iff.1 ⟨3, 0, 4⟩).2
      (by rw [hm]; norm_num)
    rw [hm] at h
    exact h

/-- C7: `Plane::new(o, x, y)` fails with `VectorsNotOrthogonal` exactly when
the dot product of the two raw axis vectors is `≥ 1e-9` (otherwise it
succeeds up to `ZeroVector` normalization failures, which produce a
different error), and `Plane::xy().normal()` is the unit +z direction. -/
theorem plane_new_orthogonality_and_xy_normal :
    (∀ (o : Point3R) (x y : ℝ × ℝ × ℝ),
      PlaneR.new o x y = .error (.vectorsNotOrthogonal (Dir3.fromTuple x)
        (Dir3.fromTuple y)) ↔
        1 / 10 ^ 9 ≤ (Dir3.fromTuple x).dot (Dir3.fromTuple y)) ∧
    PlaneR.new ⟨0, 0, 0⟩ (1, 0, 0) (0, 1, 0) = .ok planeXY ∧
    planeXY.normal = ⟨0, 0, 1⟩ := by
  refine ⟨?_, ?_, ?_⟩
  · intro o x y
    rw [PlaneR.new]
    by_cases hd : (Dir3.fromTuple x).dot (Dir3.fromTuple y) < 1 / 10 ^ 9
    · rw [if_neg (not_not_intro hd)]
      refine iff_of_false ?_ (not_le.mpr hd)
      cases hxn : (Dir3.fromTuple x).normalize with
      | error e =>
        intro h
        simp only [hxn] at h
        injection h with h1
        rw [normalize_error_is_zeroVector _ _ hxn] at h1
        exact nomatch h1
      | ok xn =>
        cases hyn : (Dir3.fromTuple y).normalize with
        | error e =>
          intro h
          simp only [hxn, hyn] at h
          injection h with h1
          rw [normalize_error_is_zeroVector _ _ hyn] at h1
          exact nomatch h1
        | ok yn =>
          intro h
          simp only [hxn, hyn] at h
          exact nomatch h
    · rw [if_pos hd]
      exact iff_of_true rfl (not_lt.mp hd)
  · rw [PlaneR.new]
    have hft1 : Dir3.fromTuple ((1 : ℝ), (0 : ℝ), (0 : ℝ)) = ⟨1, 0, 0⟩ := rfl
    have hft2 : Dir3.fromTuple ((0 : ℝ), (1 : ℝ), (0 : ℝ)) = ⟨0, 1, 0⟩ := rfl
    rw [hft1, hft2]
    have hdot : Dir3.dot ⟨1, 0, 0⟩ ⟨0, 1, 0⟩ = 0 := by
      rw [Dir3.dot]
      norm_num
    rw [if_neg (not_not_intro (by rw [hdot]; norm_num))]
    have hm1 : Dir3.magnitude ⟨1, 0, 0⟩ = 1 := by
      rw [Dir3.magnitude]
      rw [show (1 : ℝ) ^ 2 + 0 ^ 2 + 0 ^ 2 = 1 by norm_num]
      exact Real.sqrt_one
    have hm2 : Dir3.magnitude ⟨0, 1, 0⟩ = 1 := by
      rw [Dir3.magnitude]
      rw [show (0 : ℝ) ^ 2 + 1 ^ 2 + 0 ^ 2 = 1 by norm_num]
      exact Real.sqrt_one
    have hn1 : Dir3.normalize ⟨1, 0, 0⟩ = .ok ⟨1, 0, 0⟩ := by
      rw [Dir3.normalize, if_neg (by rw [hm1]; norm_num), hm1]
      norm_num
    have hn2 : Dir3.normalize ⟨0, 1, 0⟩ = .ok ⟨0, 1, 0⟩ := by
      rw [Dir3.normalize, if_neg (by rw [hm2]; norm_num), hm2]
      norm_num
    rw [hn1, hn2]
    rfl
  · rw [planeXY, PlaneR.normal]
    show Dir3.cross ⟨1, 0, 0⟩ ⟨0, 1, 0⟩ = ⟨0, 0, 1⟩
    rw [Dir3.cross]
    norm_num
